import Mathlib

/-!
Shallow embedding of the NBD (Network Block Device) server core, translated
from the C source (nbd.c).  Machine integers are modelled as Nat or Int with
explicit reduction modulo 2^64 where the C performs uint64_t arithmetic.
External effects (socket reads and writes, block-backend calls, buffer
allocation) are modelled as environment parameters; the outcome of a request
round trip records the backend calls made, the reply frames emitted, the
number of request-payload bytes consumed from the socket, and whether the
connection was closed.
-/

/-! ## Host errno constants (Linux values, as used by the C source) -/

def EPERM : Int := 1
def EIOerr : Int := 5
def EAGAIN : Int := 11
def ENOMEM : Int := 12
def EINVAL : Int := 22
def EFBIG : Int := 27
def ENOSPC : Int := 28
def EROFS : Int := 30
def EDQUOT : Int := 122

/-! ## NBD protocol constants.

The numeric values of the NBD_* wire constants live in nbd.h / nbd-internal.h,
which is not part of the provided sources; the values below are modelled from
the spec (sections 4.A and 6), which lists them explicitly. -/

def NBD_REQUEST_MAGIC : Nat := 0x25609513
def NBD_REPLY_MAGIC : Nat := 0x67446698
def NBD_REP_MAGIC : Nat := 0x0003e889045565a9

def NBD_CMD_MASK_COMMAND : Nat := 0xffff
def NBD_CMD_FLAG_FUA : Nat := 0x10000

def NBD_CMD_READ : Nat := 0
def NBD_CMD_WRITE : Nat := 1
def NBD_CMD_DISC : Nat := 2
def NBD_CMD_FLUSH : Nat := 3
def NBD_CMD_TRIM : Nat := 4

def NBD_FLAG_READ_ONLY : Nat := 2

def NBD_OPT_EXPORT_NAME : Nat := 1
def NBD_OPT_ABORT : Nat := 2
def NBD_OPT_LIST : Nat := 3

def NBD_REP_ACK : Nat := 1
def NBD_REP_SERVER : Nat := 2
def NBD_REP_ERR_UNSUP : Nat := 0x80000001
def NBD_REP_ERR_INVALID : Nat := 0x80000003

def NBD_MAX_BUFFER_SIZE : Nat := 32 * 1024 * 1024

def BDRV_SECTOR_SIZE : Nat := 512

def MAX_NBD_REQUESTS : Nat := 16

/-- Modulus of uint64_t arithmetic (2 to the 64th, written as a numeral). -/
def U64 : Nat := 18446744073709551616

/-! ## Host-errno to NBD-error mapping -/

/-- Translation of system_errno_to_nbd_errno from the source.  The returned
numbers are the NBD on-wire error codes NBD_SUCCESS = 0, NBD_EPERM = 1,
NBD_EIO = 5, NBD_ENOMEM = 12, NBD_ENOSPC = 28 and NBD_EINVAL = 22 (values
modelled from the spec, section 4.A; the switch structure is from the
source).  EDQUOT is compiled in on Linux. -/
def system_errno_to_nbd_errno (err : Int) : Int :=
  if err = 0 then 0
  else if err = EPERM then 1
  else if err = EIOerr then 5
  else if err = ENOMEM then 12
  else if err = EDQUOT ∨ err = EFBIG ∨ err = ENOSPC then 28
  else 22

/-! ## Request round trip (nbd_receive_request / nbd_co_receive_request /
nbd_trip / nbd_co_send_reply / nbd_send_reply) -/

/-- Decoded 28-byte request header, fields as parsed by nbd_receive_request.
The field off is the request's `from` field (offset), a uint64. -/
structure NbdRequestHdr where
  magic : Nat
  rtype : Nat
  handle : Nat
  off : Nat
  len : Nat
deriving Repr, DecidableEq

/-- Environment of one nbd_trip execution: the client and export fields it
reads, plus the outcome of each external effect it may perform.
hdrRes is the result of the read_sync of the 28-byte header (0 = the full
header arrived; a negative errno otherwise).  allocOk is whether
blk_try_blockalign succeeds; recvPayloadOk whether qemu_co_recv returns the
full WRITE payload; sendOk whether the socket writes of the reply succeed;
readRes/writeRes/flushRes/discardRes are the blk_read/blk_write/blk_co_flush/
blk_co_discard return values (0 or a negative errno).  closingAfterRecv is
the value of client->closing re-read after the receive suspension point. -/
structure TripEnv where
  closing : Bool
  closingAfterRecv : Bool
  hdrRes : Int
  allocOk : Bool
  recvPayloadOk : Bool
  sendOk : Bool
  expSize : Int
  devOffset : Nat
  nbdflags : Nat
  readRes : Int
  writeRes : Int
  flushRes : Int
  discardRes : Int
deriving Repr, DecidableEq

/-- Translation of nbd_receive_request: propagate a read error, then reject a
bad request magic with -EINVAL. -/
def nbd_receive_request (env : TripEnv) (req : NbdRequestHdr) : Int :=
  if env.hdrRes < 0 then env.hdrRes
  else if req.magic ≠ NBD_REQUEST_MAGIC then -EINVAL
  else 0

/-- Translation of nbd_co_receive_request.  Returns the rc of the function
together with the number of request-payload bytes consumed from the socket
(request->len for a fully received WRITE payload; on the failure paths the C
may have consumed a partial payload before closing, which the model does not
track and reports as 0). -/
def nbd_co_receive_request (env : TripEnv) (req : NbdRequestHdr) : Int × Nat :=
  let rc := nbd_receive_request env req
  if rc < 0 then (if rc = -EAGAIN then -EAGAIN else -EIOerr, 0)
  else if (req.off + req.len) % U64 < req.off then (-EINVAL, 0)
  else
    let command := req.rtype &&& NBD_CMD_MASK_COMMAND
    if (command = NBD_CMD_READ ∨ command = NBD_CMD_WRITE) ∧
        NBD_MAX_BUFFER_SIZE < req.len then (-EINVAL, 0)
    else if (command = NBD_CMD_READ ∨ command = NBD_CMD_WRITE) ∧
        env.allocOk = false then (-ENOMEM, 0)
    else if command = NBD_CMD_WRITE then
      if env.recvPayloadOk then (0, req.len) else (-EIOerr, 0)
    else (0, 0)

/-- One reply frame as put on the wire by nbd_send_reply: the error field
after the errno mapping, the echoed handle, and the number of payload bytes
that follow the 16-byte header (nonzero only for a successful READ). -/
structure NbdReply where
  error : Int
  handle : Nat
  payloadLen : Nat
deriving Repr, DecidableEq

/-- One call into the block backend, with sector-granularity arguments
exactly as nbd_trip passes them. -/
inductive BackendCall where
  | read (sector : Nat) (nSectors : Nat)
  | write (sector : Nat) (nSectors : Nat)
  | flush
  | discard (sector : Nat) (nSectors : Nat)
deriving Repr, DecidableEq

/-- Observable outcome of one nbd_trip execution. -/
structure TripOutcome where
  consumed : Nat
  calls : List BackendCall
  replies : List NbdReply
  closed : Bool
deriving Repr, DecidableEq

/-- Translation of nbd_co_send_reply followed by nbd_send_reply: under the
send lock emit one reply frame whose error field has been translated by
system_errno_to_nbd_errno; on a socket write failure nbd_trip reaches its
out label and closes the connection (client_close). -/
def sendReplyStep (env : TripEnv) (consumed : Nat) (calls : List BackendCall)
    (err : Int) (handle : Nat) (payloadLen : Nat) : TripOutcome :=
  if env.sendOk then
    ⟨consumed, calls, [⟨system_errno_to_nbd_errno err, handle, payloadLen⟩], false⟩
  else ⟨consumed, calls, [], true⟩

/-- The exp->size value as the C sees it in the uint64_t comparison
(request.from + request.len) > exp->size: the signed off_t converted to
uint64_t, i.e. reduced modulo 2^64 onto a non-negative representative. -/
def expSizeU64 (env : TripEnv) : Nat := (env.expSize % (18446744073709551616 : Int)).toNat

/-- Translation of nbd_trip: receive one request, dispatch it, send the reply.
The outcome records the payload bytes consumed, the backend calls made in
order, the reply frames emitted, and whether the connection was closed. -/
def nbd_trip (env : TripEnv) (req : NbdRequestHdr) : TripOutcome :=
  if env.closing then ⟨0, [], [], false⟩
  else
    let r := nbd_co_receive_request env req
    let rc := r.1
    let consumed := r.2
    if rc = -EAGAIN then ⟨consumed, [], [], false⟩
    else if rc = -EIOerr then ⟨consumed, [], [], true⟩
    else if rc < 0 then sendReplyStep env consumed [] (-rc) req.handle 0
    else
      let command := req.rtype &&& NBD_CMD_MASK_COMMAND
      if command ≠ NBD_CMD_DISC ∧ expSizeU64 env < req.off + req.len then
        sendReplyStep env consumed [] EINVAL req.handle 0
      else if env.closingAfterRecv then ⟨consumed, [], [], false⟩
      else if command = NBD_CMD_READ then
        if req.rtype &&& NBD_CMD_FLAG_FUA ≠ 0 ∧ env.flushRes < 0 then
          sendReplyStep env consumed [.flush] (-env.flushRes) req.handle 0
        else
          let calls := (if req.rtype &&& NBD_CMD_FLAG_FUA ≠ 0 then [BackendCall.flush] else []) ++
            [.read ((req.off + env.devOffset) % U64 / BDRV_SECTOR_SIZE)
              (req.len / BDRV_SECTOR_SIZE)]
          if env.readRes < 0 then
            sendReplyStep env consumed calls (-env.readRes) req.handle 0
          else sendReplyStep env consumed calls 0 req.handle req.len
      else if command = NBD_CMD_WRITE then
        if env.nbdflags &&& NBD_FLAG_READ_ONLY ≠ 0 then
          sendReplyStep env consumed [] EROFS req.handle 0
        else
          let calls1 := [BackendCall.write ((req.off + env.devOffset) % U64 / BDRV_SECTOR_SIZE)
            (req.len / BDRV_SECTOR_SIZE)]
          if env.writeRes < 0 then
            sendReplyStep env consumed calls1 (-env.writeRes) req.handle 0
          else if req.rtype &&& NBD_CMD_FLAG_FUA ≠ 0 ∧ env.flushRes < 0 then
            sendReplyStep env consumed (calls1 ++ [.flush]) (-env.flushRes) req.handle 0
          else
            sendReplyStep env consumed
              (calls1 ++ (if req.rtype &&& NBD_CMD_FLAG_FUA ≠ 0 then [BackendCall.flush] else []))
              0 req.handle 0
      else if command = NBD_CMD_DISC then ⟨consumed, [], [], true⟩
      else if command = NBD_CMD_FLUSH then
        sendReplyStep env consumed [.flush]
          (if env.flushRes < 0 then -env.flushRes else 0) req.handle 0
      else if command = NBD_CMD_TRIM then
        sendReplyStep env consumed
          [.discard ((req.off + env.devOffset) % U64 / BDRV_SECTOR_SIZE)
            (req.len / BDRV_SECTOR_SIZE)]
          (if env.discardRes < 0 then -env.discardRes else 0) req.handle 0
      else sendReplyStep env consumed [] EINVAL req.handle 0

/-! ## Theorems for claim C3 -/

/-- C3: the host-errno-to-NBD-error mapping applied to every reply's error
field satisfies exactly: 0 maps to 0, EPERM to 1, EIO to 5, ENOMEM to 12,
EINVAL to 22, and each of ENOSPC, EFBIG, EDQUOT to 28; every other errno
value maps to 22 (EINVAL). -/
theorem errno_mapping_table :
    system_errno_to_nbd_errno 0 = 0 ∧
    system_errno_to_nbd_errno EPERM = 1 ∧
    system_errno_to_nbd_errno EIOerr = 5 ∧
    system_errno_to_nbd_errno ENOMEM = 12 ∧
    system_errno_to_nbd_errno EINVAL = 22 ∧
    system_errno_to_nbd_errno ENOSPC = 28 ∧
    system_errno_to_nbd_errno EFBIG = 28 ∧
    system_errno_to_nbd_errno EDQUOT = 28 ∧
    ∀ e : Int, e ≠ 0 → e ≠ EPERM → e ≠ EIOerr → e ≠ ENOMEM →
      e ≠ ENOSPC → e ≠ EFBIG → e ≠ EDQUOT → system_errno_to_nbd_errno e = 22 := by
  refine ⟨by decide, by decide, by decide, by decide, by decide, by decide,
    by decide, by decide, ?_⟩
  intro e h0 h1 h2 h3 h4 h5 h6
  unfold system_errno_to_nbd_errno
  rw [if_neg h0, if_neg h1, if_neg h2, if_neg h3, if_neg]
  rintro (h | h | h)
  · exact h6 h
  · exact h5 h
  · exact h4 h

/-- Witness for errno_mapping_table: the catch-all case evaluated at the
concrete errno EROFS = 30, which is in none of the listed cases. -/
theorem errno_mapping_table_witness : system_errno_to_nbd_errno 30 = 22 :=
  errno_mapping_table.2.2.2.2.2.2.2.2 30 (by decide) (by decide) (by decide)
    (by decide) (by decide) (by decide) (by decide)

/-! ## Theorems for claim C1 -/

/-- Concrete environment for the request-pipeline scenarios: a healthy
connection (header read succeeds, allocation succeeds, payload receive
succeeds, reply sends succeed), export size 0x100000, no device offset,
no export flags, and a backend whose operations all succeed. -/
def envOk : TripEnv :=
  ⟨false, false, 0, true, true, true, 0x100000, 0, 0, 0, 0, 0, 0⟩

/-- Counterexample to C1: a READ request whose offset 2^64 - 1 plus length 2
wraps around 64 bits.  The claim says the server closes the connection and
emits no reply frame; the code instead emits a reply frame (with NBD error
EINVAL) and leaves the connection open. -/
theorem overflow_close_counterexample :
    ¬ ((nbd_trip envOk ⟨NBD_REQUEST_MAGIC, 0, 1, 18446744073709551615, 2⟩).closed = true ∧
       (nbd_trip envOk ⟨NBD_REQUEST_MAGIC, 0, 1, 18446744073709551615, 2⟩).replies = []) := by
  decide

/-- C1 (amended): for every request frame in which the unsigned 64-bit sum
offset + length overflows (wraps below offset), the server does not close
the connection; it invokes no backend operation, consumes no payload, and
emits exactly one reply frame for that request carrying NBD error
EINVAL (22), provided the reply send succeeds. -/
theorem overflow_replies_einval (env : TripEnv) (req : NbdRequestHdr)
    (hcl : env.closing = false) (hhdr : env.hdrRes = 0)
    (hmagic : req.magic = NBD_REQUEST_MAGIC) (hsend : env.sendOk = true)
    (hoff : req.off < U64) (hlen : req.len < 4294967296)
    (hwrap : U64 ≤ req.off + req.len) :
    (nbd_trip env req).consumed = 0 ∧ (nbd_trip env req).calls = [] ∧
    (nbd_trip env req).replies = [⟨22, req.handle, 0⟩] ∧
    (nbd_trip env req).closed = false := by
  have hmod : (req.off + req.len) % U64 = req.off + req.len - U64 := by
    rw [Nat.mod_eq_sub_mod hwrap, Nat.mod_eq_of_lt (by unfold U64 at *; omega)]
  have hlt : (req.off + req.len) % U64 < req.off := by
    rw [hmod]; unfold U64 at *; omega
  simp only [nbd_trip, nbd_co_receive_request, nbd_receive_request, sendReplyStep,
    hcl, hhdr, hmagic, hsend]
  norm_num [hlt, system_errno_to_nbd_errno, EINVAL, EAGAIN, EIOerr, EPERM,
    ENOMEM, EDQUOT, EFBIG, ENOSPC]

/-- Witness for overflow_replies_einval at the concrete wrap-around request
of the counterexample environment. -/
theorem overflow_replies_einval_witness :
    (nbd_trip envOk ⟨NBD_REQUEST_MAGIC, 0, 1, 18446744073709551615, 2⟩).consumed = 0 ∧
    (nbd_trip envOk ⟨NBD_REQUEST_MAGIC, 0, 1, 18446744073709551615, 2⟩).calls = [] ∧
    (nbd_trip envOk ⟨NBD_REQUEST_MAGIC, 0, 1, 18446744073709551615, 2⟩).replies = [⟨22, 1, 0⟩] ∧
    (nbd_trip envOk ⟨NBD_REQUEST_MAGIC, 0, 1, 18446744073709551615, 2⟩).closed = false :=
  overflow_replies_einval envOk ⟨NBD_REQUEST_MAGIC, 0, 1, 18446744073709551615, 2⟩
    rfl rfl rfl rfl (by decide) (by decide) (by decide)

/-! ## Theorems for claim C4 -/

/-- C4: for every successfully decoded request whose command is not DISC and
whose offset + length exceeds the export's size, the server sends a reply
with NBD error EINVAL (22), invokes no backend operation, and keeps the
connection open (assuming the reply send itself succeeds).  The length
bound, allocation success and payload-receive success hypotheses are the
conditions under which the receive step decodes the request successfully. -/
theorem oversize_request_einval_no_backend (env : TripEnv) (req : NbdRequestHdr)
    (hcl : env.closing = false) (hhdr : env.hdrRes = 0)
    (hmagic : req.magic = NBD_REQUEST_MAGIC)
    (halloc : env.allocOk = true) (hrecv : env.recvPayloadOk = true)
    (hsend : env.sendOk = true)
    (hlen : req.len ≤ NBD_MAX_BUFFER_SIZE) (hoff : req.off < U64)
    (hlen32 : req.len < 4294967296)
    (hsz0 : 0 ≤ env.expSize) (hsz1 : env.expSize < 9223372036854775808)
    (hcmd : req.rtype &&& NBD_CMD_MASK_COMMAND ≠ NBD_CMD_DISC)
    (hover : env.expSize < ((req.off + req.len : Nat) : Int)) :
    (nbd_trip env req).calls = [] ∧
    (nbd_trip env req).replies = [⟨22, req.handle, 0⟩] ∧
    (nbd_trip env req).closed = false := by
  have hszu : expSizeU64 env = env.expSize.toNat := by
    unfold expSizeU64
    rw [Int.emod_eq_of_lt hsz0 (lt_trans hsz1 (by norm_num))]
  have hovn : expSizeU64 env < req.off + req.len := by
    rw [hszu]; omega
  have hcmd2 : ¬ (req.rtype &&& NBD_CMD_MASK_COMMAND = 2) := by
    simpa [NBD_CMD_DISC] using hcmd
  by_cases hwrap : U64 ≤ req.off + req.len
  · have hmod : (req.off + req.len) % U64 < req.off := by
      rw [Nat.mod_eq_sub_mod hwrap, Nat.mod_eq_of_lt (by unfold U64 at *; omega)]
      unfold U64 at *; omega
    simp only [nbd_trip, nbd_co_receive_request, nbd_receive_request,
      sendReplyStep, hcl, hhdr, hmagic, hsend]
    norm_num [hmod, system_errno_to_nbd_errno, EINVAL, EAGAIN, EIOerr, EPERM,
      ENOMEM, EDQUOT, EFBIG, ENOSPC]
  · have hmod : ¬ ((req.off + req.len) % U64 < req.off) := by
      rw [Nat.mod_eq_of_lt (by omega)]; omega
    have hlen2 : ¬ (NBD_MAX_BUFFER_SIZE < req.len) := Nat.not_lt.mpr hlen
    by_cases hc1 : req.rtype &&& NBD_CMD_MASK_COMMAND = 1
    · simp only [nbd_trip, nbd_co_receive_request, nbd_receive_request,
        sendReplyStep, hcl, hhdr, hmagic, hsend, halloc, hrecv]
      norm_num [hmod, hlen2, hcmd2, hovn, hc1, NBD_CMD_READ, NBD_CMD_WRITE,
        NBD_CMD_DISC, NBD_CMD_FLUSH, NBD_CMD_TRIM, system_errno_to_nbd_errno,
        EINVAL, EAGAIN, EIOerr, EPERM, ENOMEM, EDQUOT, EFBIG, ENOSPC]
    · simp only [nbd_trip, nbd_co_receive_request, nbd_receive_request,
        sendReplyStep, hcl, hhdr, hmagic, hsend, halloc, hrecv]
      norm_num [hmod, hlen2, hcmd2, hovn, hc1, NBD_CMD_READ, NBD_CMD_WRITE,
        NBD_CMD_DISC, NBD_CMD_FLUSH, NBD_CMD_TRIM, system_errno_to_nbd_errno,
        EINVAL, EAGAIN, EIOerr, EPERM, ENOMEM, EDQUOT, EFBIG, ENOSPC]

/-- Witness for oversize_request_einval_no_backend: a READ of 0x1000 bytes at
offset 0x800 against an export of size 0x1000 (spec scenario 4). -/
theorem oversize_request_einval_witness :
    (nbd_trip ⟨false, false, 0, true, true, true, 0x1000, 0, 0, 0, 0, 0, 0⟩
      ⟨NBD_REQUEST_MAGIC, 0, 9, 0x800, 0x1000⟩).calls = [] ∧
    (nbd_trip ⟨false, false, 0, true, true, true, 0x1000, 0, 0, 0, 0, 0, 0⟩
      ⟨NBD_REQUEST_MAGIC, 0, 9, 0x800, 0x1000⟩).replies = [⟨22, 9, 0⟩] ∧
    (nbd_trip ⟨false, false, 0, true, true, true, 0x1000, 0, 0, 0, 0, 0, 0⟩
      ⟨NBD_REQUEST_MAGIC, 0, 9, 0x800, 0x1000⟩).closed = false :=
  oversize_request_einval_no_backend
    ⟨false, false, 0, true, true, true, 0x1000, 0, 0, 0, 0, 0, 0⟩
    ⟨NBD_REQUEST_MAGIC, 0, 9, 0x800, 0x1000⟩
    rfl rfl rfl rfl rfl rfl (by decide) (by decide) (by decide) (by decide)
    (by decide) (by decide) (by decide)

/-! ## Theorems for claim C5 -/

/-- Concrete environment for the read-only-export scenario: same healthy
connection as envOk but the export carries NBD_FLAG_READ_ONLY. -/
def envRO : TripEnv :=
  ⟨false, false, 0, true, true, true, 0x100000, 0, 2, 0, 0, 0, 0⟩

/-- Counterexample to C5: a 0x200-byte WRITE with handle 7 on a read-only
export (spec scenario 5).  The claim says the reply's NBD error field is
EPERM (1); the code sets reply.error = EROFS (30), which the errno mapping's
default case translates to EINVAL (22), not 1. -/
theorem readonly_write_eperm_counterexample :
    ¬ ((nbd_trip envRO ⟨NBD_REQUEST_MAGIC, 1, 7, 0, 0x200⟩).replies.map
        NbdReply.error = [1]) := by
  decide

/-- C5 (amended): for every WRITE request on a READ_ONLY export that the
receive step decodes fully (length within the buffer bound, buffer
allocated, payload received) and that is within the export's bounds, the
server consumes the full length-byte payload, performs no backend write,
and sends a reply frame whose NBD error field is EINVAL (22) - the EROFS
error falls through the errno mapping's default case - keeping the
connection open. -/
theorem readonly_write_einval_reply (env : TripEnv) (req : NbdRequestHdr)
    (hcl : env.closing = false) (hcl2 : env.closingAfterRecv = false)
    (hhdr : env.hdrRes = 0) (hmagic : req.magic = NBD_REQUEST_MAGIC)
    (halloc : env.allocOk = true) (hrecv : env.recvPayloadOk = true)
    (hsend : env.sendOk = true)
    (hcw : req.rtype &&& NBD_CMD_MASK_COMMAND = NBD_CMD_WRITE)
    (hro : env.nbdflags &&& NBD_FLAG_READ_ONLY ≠ 0)
    (hlen : req.len ≤ NBD_MAX_BUFFER_SIZE)
    (hoff : req.off < U64) (hlen32 : req.len < 4294967296)
    (hnowrap : req.off + req.len < U64)
    (hsz0 : 0 ≤ env.expSize) (hsz1 : env.expSize < 9223372036854775808)
    (hin : ((req.off + req.len : Nat) : Int) ≤ env.expSize) :
    (nbd_trip env req).consumed = req.len ∧
    (nbd_trip env req).calls = [] ∧
    (nbd_trip env req).replies = [⟨22, req.handle, 0⟩] ∧
    (nbd_trip env req).closed = false := by
  have hszu : expSizeU64 env = env.expSize.toNat := by
    unfold expSizeU64
    rw [Int.emod_eq_of_lt hsz0 (lt_trans hsz1 (by norm_num))]
  have hbound : ¬ (expSizeU64 env < req.off + req.len) := by
    rw [hszu]; omega
  have hmod : ¬ ((req.off + req.len) % U64 < req.off) := by
    rw [Nat.mod_eq_of_lt hnowrap]; omega
  have hlen2 : ¬ (NBD_MAX_BUFFER_SIZE < req.len) := Nat.not_lt.mpr hlen
  have hcw1 : req.rtype &&& NBD_CMD_MASK_COMMAND = 1 := by
    simpa [NBD_CMD_WRITE] using hcw
  have hro2 : ¬ (env.nbdflags &&& 2 = 0) := by
    simpa [NBD_FLAG_READ_ONLY] using hro
  simp only [nbd_trip, nbd_co_receive_request, nbd_receive_request,
    sendReplyStep, hcl, hcl2, hhdr, hmagic, hsend, halloc, hrecv]
  norm_num [hmod, hlen2, hbound, hcw1, hro2, NBD_CMD_READ, NBD_CMD_WRITE,
    NBD_CMD_DISC, NBD_CMD_FLUSH, NBD_CMD_TRIM, NBD_FLAG_READ_ONLY,
    system_errno_to_nbd_errno, EINVAL, EAGAIN, EIOerr, EPERM, ENOMEM,
    EDQUOT, EFBIG, ENOSPC, EROFS]

/-- Witness for readonly_write_einval_reply at the concrete request of the
counterexample (handle 7, offset 0, length 0x200). -/
theorem readonly_write_einval_reply_witness :
    (nbd_trip envRO ⟨NBD_REQUEST_MAGIC, 1, 7, 0, 0x200⟩).consumed = 0x200 ∧
    (nbd_trip envRO ⟨NBD_REQUEST_MAGIC, 1, 7, 0, 0x200⟩).calls = [] ∧
    (nbd_trip envRO ⟨NBD_REQUEST_MAGIC, 1, 7, 0, 0x200⟩).replies = [⟨22, 7, 0⟩] ∧
    (nbd_trip envRO ⟨NBD_REQUEST_MAGIC, 1, 7, 0, 0x200⟩).closed = false :=
  readonly_write_einval_reply envRO ⟨NBD_REQUEST_MAGIC, 1, 7, 0, 0x200⟩
    rfl rfl rfl rfl rfl rfl rfl (by decide) (by decide) (by decide)
    (by decide) (by decide) (by decide) (by decide) (by decide) (by decide)

/-! ## Theorems for claim C10 -/

/-- C10: for every READ, WRITE, or TRIM request whose length is not a
multiple of 512, the backend transfer covers only floor(length / 512)
sectors - 512 * (length / 512) = length - length mod 512 < length bytes,
so the trailing length mod 512 bytes are never read from or written to the
backend - yet a successful READ reply still carries exactly length payload
bytes on the wire. -/
theorem unaligned_length_floor_sectors (env : TripEnv) (hdl off len : Nat)
    (hcl : env.closing = false) (hcl2 : env.closingAfterRecv = false)
    (hhdr : env.hdrRes = 0) (halloc : env.allocOk = true)
    (hrecv : env.recvPayloadOk = true) (hsend : env.sendOk = true)
    (hrw : env.nbdflags &&& NBD_FLAG_READ_ONLY = 0)
    (hread : env.readRes = 0) (hwrite : env.writeRes = 0)
    (hdisc : env.discardRes = 0)
    (hlen : len ≤ NBD_MAX_BUFFER_SIZE) (hoff : off < U64)
    (hlen32 : len < 4294967296) (hnowrap : off + len < U64)
    (hsz0 : 0 ≤ env.expSize) (hsz1 : env.expSize < 9223372036854775808)
    (hin : ((off + len : Nat) : Int) ≤ env.expSize)
    (hunal : len % 512 ≠ 0) :
    nbd_trip env ⟨NBD_REQUEST_MAGIC, 0, hdl, off, len⟩ =
      ⟨0, [.read ((off + env.devOffset) % U64 / 512) (len / 512)],
        [⟨0, hdl, len⟩], false⟩ ∧
    nbd_trip env ⟨NBD_REQUEST_MAGIC, 1, hdl, off, len⟩ =
      ⟨len, [.write ((off + env.devOffset) % U64 / 512) (len / 512)],
        [⟨0, hdl, 0⟩], false⟩ ∧
    nbd_trip env ⟨NBD_REQUEST_MAGIC, 4, hdl, off, len⟩ =
      ⟨0, [.discard ((off + env.devOffset) % U64 / 512) (len / 512)],
        [⟨0, hdl, 0⟩], false⟩ ∧
    512 * (len / 512) = len - len % 512 ∧
    512 * (len / 512) < len := by
  have hszu : expSizeU64 env = env.expSize.toNat := by
    unfold expSizeU64
    rw [Int.emod_eq_of_lt hsz0 (lt_trans hsz1 (by norm_num))]
  have hbound : ¬ (expSizeU64 env < off + len) := by
    rw [hszu]; omega
  have hmod : ¬ ((off + len) % U64 < off) := by
    rw [Nat.mod_eq_of_lt hnowrap]; omega
  have hlen2 : ¬ (NBD_MAX_BUFFER_SIZE < len) := Nat.not_lt.mpr hlen
  have hrw2 : env.nbdflags &&& 2 = 0 := by simpa [NBD_FLAG_READ_ONLY] using hrw
  have ha0 : (0 &&& 65535 : Nat) = 0 := by decide
  have ha1 : (1 &&& 65535 : Nat) = 1 := by decide
  have ha4 : (4 &&& 65535 : Nat) = 4 := by decide
  have hf0 : (0 &&& 65536 : Nat) = 0 := by decide
  have hf1 : (1 &&& 65536 : Nat) = 0 := by decide
  have hf4 : (4 &&& 65536 : Nat) = 0 := by decide
  have hdm := Nat.div_add_mod len 512
  refine ⟨?_, ?_, ?_, by omega, by omega⟩ <;>
  · simp only [nbd_trip, nbd_co_receive_request, nbd_receive_request,
      sendReplyStep, hcl, hcl2, hhdr, hsend, halloc, hrecv, hread, hwrite,
      hdisc]
    norm_num [hmod, hlen2, hbound, hrw2, ha0, ha1, ha4, hf0, hf1, hf4,
      NBD_REQUEST_MAGIC, NBD_CMD_READ,
      NBD_CMD_WRITE, NBD_CMD_DISC, NBD_CMD_FLUSH, NBD_CMD_TRIM,
      NBD_CMD_MASK_COMMAND, NBD_CMD_FLAG_FUA, NBD_FLAG_READ_ONLY,
      BDRV_SECTOR_SIZE, system_errno_to_nbd_errno, EINVAL, EAGAIN, EIOerr,
      EPERM, ENOMEM, EDQUOT, EFBIG, ENOSPC]

/-- Witness for unaligned_length_floor_sectors: length 0x201 (one sector
plus one byte) at offset 0 against the healthy environment; the backend
transfers exactly one sector while the READ reply carries 0x201 bytes. -/
theorem unaligned_length_floor_sectors_witness :
    nbd_trip envOk ⟨NBD_REQUEST_MAGIC, 0, 11, 0, 0x201⟩ =
      ⟨0, [.read 0 1], [⟨0, 11, 0x201⟩], false⟩ ∧
    nbd_trip envOk ⟨NBD_REQUEST_MAGIC, 1, 11, 0, 0x201⟩ =
      ⟨0x201, [.write 0 1], [⟨0, 11, 0⟩], false⟩ ∧
    nbd_trip envOk ⟨NBD_REQUEST_MAGIC, 4, 11, 0, 0x201⟩ =
      ⟨0, [.discard 0 1], [⟨0, 11, 0⟩], false⟩ ∧
    512 * (0x201 / 512) = 0x201 - 0x201 % 512 ∧
    512 * (0x201 / 512) < 0x201 :=
  unaligned_length_floor_sectors envOk 11 0 0x201
    rfl rfl rfl rfl rfl rfl rfl rfl rfl rfl (by decide) (by decide)
    (by decide) (by decide) (by decide) (by decide) (by decide) (by decide)

/-! ## Option negotiation (nbd_negotiate_options and its helpers) -/

/-- Byte sequence of a string, as strlen/strcmp see it. -/
def strBytes (s : String) : List Nat := s.toUTF8.toList.map (fun b => b.toNat)

/-- Big-endian encoding of a u32, as cpu_to_be32 produces it. -/
def u32be (n : Nat) : List Nat :=
  [n / 16777216 % 256, n / 65536 % 256, n / 256 % 256, n % 256]

/-- One option reply frame as written by the server: REP magic, the echoed
option id, the reply type, the payload length, and the payload bytes. -/
structure OptReply where
  magic : Nat
  option : Nat
  rtype : Nat
  length : Nat
  payload : List Nat
deriving Repr, DecidableEq

/-- Environment of the option-handling code: whether the socket writes of
option replies succeed, whether draining payload bytes succeeds, and whether
reading the export name succeeds. -/
structure NegEnv where
  writeOk : Bool
  drainOk : Bool
  readOk : Bool
deriving Repr, DecidableEq

/-- One option frame received from the client (already decoded: the
OPTS_MAGIC was validated by the caller loop), with the payload bytes the
client sent after the 16-byte option header. -/
structure OptionFrame where
  option : Nat
  length : Nat
  payload : List Nat
deriving Repr, DecidableEq

/-- Translation of nbd_negotiate_send_rep: a zero-payload reply frame with
the given reply type, echoing the given option id (argument order as in the
C function). -/
def nbd_negotiate_send_rep (rtype opt : Nat) : OptReply :=
  ⟨NBD_REP_MAGIC, opt, rtype, 0, []⟩

/-- Translation of nbd_negotiate_send_rep_list: a REP_SERVER reply for one
export whose payload is the name length as a big-endian u32 followed by the
name bytes; the frame's length field is name length + 4. -/
def nbd_negotiate_send_rep_list (name : String) : OptReply :=
  ⟨NBD_REP_MAGIC, NBD_OPT_LIST, NBD_REP_SERVER, (strBytes name).length + 4,
    u32be (strBytes name).length ++ strBytes name⟩

/-- Translation of nbd_negotiate_handle_list.  Returns the number of payload
bytes drained from the socket, the option replies emitted, and the
function's return code.  names is the exports registry in insertion order
(the QTAILQ the C iterates with QTAILQ_FOREACH).  On a drain failure the C
returns -EIO having consumed an unspecified partial payload (modelled as 0);
on a write failure it returns a negative code with the reply possibly
truncated (modelled as no reply). -/
def nbd_negotiate_handle_list (env : NegEnv) (names : List String)
    (length : Nat) : Nat × List OptReply × Int :=
  if length ≠ 0 then
    if env.drainOk = false then (0, [], -EIOerr)
    else if env.writeOk then
      (length, [nbd_negotiate_send_rep NBD_REP_ERR_INVALID NBD_OPT_LIST], 0)
    else (length, [], -EINVAL)
  else
    if env.writeOk then
      (0, names.map nbd_negotiate_send_rep_list ++
        [nbd_negotiate_send_rep NBD_REP_ACK NBD_OPT_LIST], 0)
    else (0, [], -EINVAL)

/-- What the per-option switch of nbd_negotiate_options does next: keep
looping for further options, close the connection (a negative return), or
return into nbd_negotiate with an export selected. -/
inductive NegNext where
  | loop
  | closed
  | selected
deriving Repr, DecidableEq

/-- Observable outcome of handling one option frame: payload bytes consumed
from the socket, option replies emitted, and what happens next. -/
structure OptOutcome where
  drained : Nat
  replies : List OptReply
  next : NegNext
deriving Repr, DecidableEq

/-- Translation of the per-option switch in nbd_negotiate_options, together
with nbd_negotiate_handle_export_name for the EXPORT_NAME arm.  Note that
the default arm sends the ERR_UNSUP reply echoing the unknown option id and
returns -EINVAL without reading the frame's payload. -/
def nbd_negotiate_handle_option (env : NegEnv) (names : List String)
    (frame : OptionFrame) : OptOutcome :=
  if frame.option = NBD_OPT_LIST then
    let r := nbd_negotiate_handle_list env names frame.length
    ⟨r.1, r.2.1, if r.2.2 < 0 then .closed else .loop⟩
  else if frame.option = NBD_OPT_ABORT then ⟨0, [], .closed⟩
  else if frame.option = NBD_OPT_EXPORT_NAME then
    if 255 < frame.length then ⟨0, [], .closed⟩
    else if env.readOk = false then ⟨0, [], .closed⟩
    else if names.any (fun nm => strBytes nm = frame.payload) then
      ⟨frame.length, [], .selected⟩
    else ⟨frame.length, [], .closed⟩
  else
    ⟨0, (if env.writeOk then
      [nbd_negotiate_send_rep NBD_REP_ERR_UNSUP frame.option] else []), .closed⟩

/-! ## Theorems for claim C6 -/

/-- Counterexample to C6: an unknown option 0xDEAD with a 4-byte payload.
The claim says the server drains the frame's length-byte payload before
replying ERR_UNSUP and closing; the code never reads the payload (0 bytes
drained, not 4). -/
theorem unknown_option_drain_counterexample :
    ¬ ((nbd_negotiate_handle_option ⟨true, true, true⟩ []
        ⟨0xDEAD, 4, [1, 2, 3, 4]⟩).drained = 4) := by
  decide

/-- C6 (amended): for every option frame during newstyle negotiation whose
option id is none of LIST (3), ABORT (2) or EXPORT_NAME (1), the server
sends an option reply of type ERR_UNSUP whose option field echoes the
received option id and then closes the connection, without draining the
frame's payload (0 bytes are consumed). -/
theorem unknown_option_unsup_reply_close (env : NegEnv) (names : List String)
    (frame : OptionFrame)
    (h1 : frame.option ≠ NBD_OPT_EXPORT_NAME)
    (h2 : frame.option ≠ NBD_OPT_ABORT)
    (h3 : frame.option ≠ NBD_OPT_LIST)
    (hw : env.writeOk = true) :
    nbd_negotiate_handle_option env names frame =
      ⟨0, [⟨NBD_REP_MAGIC, frame.option, NBD_REP_ERR_UNSUP, 0, []⟩],
        .closed⟩ := by
  simp [nbd_negotiate_handle_option, nbd_negotiate_send_rep, h1, h2, h3, hw]

/-- Witness for unknown_option_unsup_reply_close at the concrete option
0xDEAD of the counterexample (spec scenario 3). -/
theorem unknown_option_unsup_reply_close_witness :
    nbd_negotiate_handle_option ⟨true, true, true⟩ [] ⟨0xDEAD, 4, [1, 2, 3, 4]⟩ =
      ⟨0, [⟨NBD_REP_MAGIC, 0xDEAD, NBD_REP_ERR_UNSUP, 0, []⟩], .closed⟩ :=
  unknown_option_unsup_reply_close ⟨true, true, true⟩ [] ⟨0xDEAD, 4, [1, 2, 3, 4]⟩
    (by decide) (by decide) (by decide) rfl

/-! ## Theorems for claim C7 -/

/-- C7: for every LIST option frame, if its length field is nonzero the
server drains the payload and replies ERR_INVALID; if the length is zero it
emits exactly one REP_SERVER reply per registered export, in registry
insertion order, each reply carrying the export name length as a big-endian
u32 followed by the name bytes, followed by exactly one REP_ACK reply
(assuming the socket writes and the drain succeed). -/
theorem list_option_replies (env : NegEnv) (names : List String) (length : Nat)
    (hw : env.writeOk = true) (hd : env.drainOk = true) :
    (length ≠ 0 → nbd_negotiate_handle_list env names length =
      (length, [⟨NBD_REP_MAGIC, NBD_OPT_LIST, NBD_REP_ERR_INVALID, 0, []⟩], 0)) ∧
    (length = 0 → nbd_negotiate_handle_list env names length =
      (0, names.map nbd_negotiate_send_rep_list ++
        [⟨NBD_REP_MAGIC, NBD_OPT_LIST, NBD_REP_ACK, 0, []⟩], 0)) ∧
    (∀ nm, nbd_negotiate_send_rep_list nm =
      ⟨NBD_REP_MAGIC, NBD_OPT_LIST, NBD_REP_SERVER, (strBytes nm).length + 4,
        u32be (strBytes nm).length ++ strBytes nm⟩) := by
  refine ⟨fun h => ?_, fun h => ?_, fun nm => rfl⟩
  · simp [nbd_negotiate_handle_list, nbd_negotiate_send_rep, h, hw, hd]
  · simp [nbd_negotiate_handle_list, nbd_negotiate_send_rep, h, hw]

/-- Witness for list_option_replies: the registry holding exports named a
then b, queried with a zero-length LIST frame (spec scenario 2), and with a
nonzero-length LIST frame. -/
theorem list_option_replies_witness :
    ((3 : Nat) ≠ 0 → nbd_negotiate_handle_list ⟨true, true, true⟩ ["a", "b"] 3 =
      (3, [⟨NBD_REP_MAGIC, NBD_OPT_LIST, NBD_REP_ERR_INVALID, 0, []⟩], 0)) ∧
    ((3 : Nat) = 0 → nbd_negotiate_handle_list ⟨true, true, true⟩ ["a", "b"] 3 =
      (0, ["a", "b"].map nbd_negotiate_send_rep_list ++
        [⟨NBD_REP_MAGIC, NBD_OPT_LIST, NBD_REP_ACK, 0, []⟩], 0)) ∧
    (∀ nm, nbd_negotiate_send_rep_list nm =
      ⟨NBD_REP_MAGIC, NBD_OPT_LIST, NBD_REP_SERVER, (strBytes nm).length + 4,
        u32be (strBytes nm).length ++ strBytes nm⟩) :=
  list_option_replies ⟨true, true, true⟩ ["a", "b"] 3 rfl rfl

/-! ## Backpressure state machine (nbd_update_can_read / nbd_request_get /
nbd_request_put / nbd_co_receive_request / nbd_read) -/

/-- Per-client readiness state: the nb_requests counter, whether a receive
coroutine is live (client->recv_coroutine is non-null), and the can_read
flag the reactor registration is keyed on. -/
structure ClientIOSt where
  nbRequests : Nat
  recvLive : Bool
  canRead : Bool
deriving Repr, DecidableEq

/-- Translation of nbd_update_can_read: recompute can_read as
recv_coroutine || nb_requests < MAX_NBD_REQUESTS (reprogramming the fd
handlers when it changed). -/
def nbd_update_can_read (s : ClientIOSt) : ClientIOSt :=
  { s with canRead := s.recvLive || decide (s.nbRequests < MAX_NBD_REQUESTS) }

/-- Translation of nbd_request_get: increment nb_requests, then
nbd_update_can_read. -/
def nbd_request_get_step (s : ClientIOSt) : ClientIOSt :=
  nbd_update_can_read { s with nbRequests := s.nbRequests + 1 }

/-- Start of nbd_co_receive_request: set client->recv_coroutine, then
nbd_update_can_read. -/
def recv_begin_step (s : ClientIOSt) : ClientIOSt :=
  nbd_update_can_read { s with recvLive := true }

/-- End of nbd_co_receive_request: clear client->recv_coroutine, then
nbd_update_can_read. -/
def recv_end_step (s : ClientIOSt) : ClientIOSt :=
  nbd_update_can_read { s with recvLive := false }

/-- Translation of nbd_request_put: decrement nb_requests, then
nbd_update_can_read. -/
def nbd_request_put_step (s : ClientIOSt) : ClientIOSt :=
  nbd_update_can_read { s with nbRequests := s.nbRequests - 1 }

/-- The steps a client's readiness state can take.  A new nbd_trip is
spawned by nbd_read only when the read handler is installed (can_read) and
no receive coroutine is live (nbd_read resumes an existing one instead);
the trip then runs nbd_request_get and enters nbd_co_receive_request with
no suspension point in between, so the two updates form one step.  A live
receive coroutine finishes its header/payload read and clears itself
(endRecv), and each in-flight request eventually runs nbd_request_put
(finishReq). -/
inductive ClientStep : ClientIOSt → ClientIOSt → Prop where
  | beginTrip (s : ClientIOSt) : s.canRead = true → s.recvLive = false →
      ClientStep s (recv_begin_step (nbd_request_get_step s))
  | endRecv (s : ClientIOSt) : s.recvLive = true →
      ClientStep s (recv_end_step s)
  | finishReq (s : ClientIOSt) : 0 < s.nbRequests →
      ClientStep s (nbd_request_put_step s)

/-- Initial client state after nbd_client_new: nb_requests = 0, no receive
coroutine, can_read = true. -/
def initClient : ClientIOSt := ⟨0, false, true⟩

/-- States reachable from a fresh client through the step relation. -/
inductive ClientReachable : ClientIOSt → Prop where
  | init : ClientReachable initClient
  | step (s t : ClientIOSt) : ClientReachable s → ClientStep s t →
      ClientReachable t

/-! ## Theorems for claim C2 -/

/-- C2: for every reachable client state, nb_requests never exceeds 16, and
after every change to nb_requests or to the receive-coroutine handle
can_read equals (a receive coroutine is live) OR (nb_requests < 16); in
particular can_read is false whenever nb_requests = 16 and no receive
coroutine is live. -/
theorem inflight_cap_and_can_read_invariant (s : ClientIOSt)
    (h : ClientReachable s) :
    s.nbRequests ≤ MAX_NBD_REQUESTS ∧
    s.canRead = (s.recvLive || decide (s.nbRequests < MAX_NBD_REQUESTS)) ∧
    (s.nbRequests = MAX_NBD_REQUESTS → s.recvLive = false →
      s.canRead = false) := by
  induction h with
  | init => simp [initClient, MAX_NBD_REQUESTS]
  | step s t _ hstep ih =>
    obtain ⟨ihcap, iheq, _⟩ := ih
    cases hstep with
    | beginTrip hcr hrl =>
      have hlt : s.nbRequests < MAX_NBD_REQUESTS := by
        rw [iheq, hrl] at hcr
        simpa using hcr
      refine ⟨?_, ?_, ?_⟩ <;>
        simp [recv_begin_step, nbd_request_get_step, nbd_update_can_read] <;>
        omega
    | endRecv hrl =>
      refine ⟨?_, ?_, ?_⟩ <;>
        simp [recv_end_step, nbd_update_can_read] <;>
        omega
    | finishReq hpos =>
      refine ⟨?_, ?_, ?_⟩ <;>
        simp [nbd_request_put_step, nbd_update_can_read] <;>
        omega

/-- Witness for inflight_cap_and_can_read_invariant at the initial client
state. -/
theorem inflight_cap_invariant_witness :
    initClient.nbRequests ≤ MAX_NBD_REQUESTS ∧
    initClient.canRead =
      (initClient.recvLive || decide (initClient.nbRequests < MAX_NBD_REQUESTS)) ∧
    (initClient.nbRequests = MAX_NBD_REQUESTS → initClient.recvLive = false →
      initClient.canRead = false) :=
  inflight_cap_and_can_read_invariant initClient ClientReachable.init

/-! ## Export registry (NBDExport, the exports QTAILQ, nbd_export_new,
nbd_export_get, nbd_export_put, nbd_export_close, nbd_export_set_name,
nbd_export_find) -/

/-- The mutable fields of one NBDExport that the registry operations touch,
plus the fields set once at creation.  The client list is not modelled:
client_close does not synchronously modify the export or the registry. -/
structure ExportData where
  refcount : Int
  name : Option String
  size : Int
  devOffset : Int
  nbdflags : Nat
deriving Repr, DecidableEq

/-- Global state: a heap of live exports addressed by identity (modelling
the C pointers), and the exports QTAILQ as the list of heap ids of named
exports in insertion order. -/
structure NBDState where
  heap : List (Nat × ExportData)
  reg : List Nat
deriving Repr, DecidableEq

/-- Dereference an export id in the heap. -/
def heapFind : List (Nat × ExportData) → Nat → Option ExportData
  | [], _ => none
  | p :: t, i => if p.1 = i then some p.2 else heapFind t i

/-- Overwrite the export with the given id (no-op if the id is dead). -/
def heapSet : List (Nat × ExportData) → Nat → ExportData → List (Nat × ExportData)
  | [], _, _ => []
  | p :: t, i, d => (if p.1 = i then (i, d) else p) :: heapSet t i d

/-- Free the export with the given id. -/
def heapErase : List (Nat × ExportData) → Nat → List (Nat × ExportData)
  | [], _ => []
  | p :: t, i => if p.1 = i then heapErase t i else p :: heapErase t i

theorem heapFind_heapSet_self (h : List (Nat × ExportData)) (i : Nat)
    (d : ExportData) :
    heapFind (heapSet h i d) i = (heapFind h i).map (fun _ => d) := by
  induction h with
  | nil => rfl
  | cons p t ih =>
    by_cases hp : p.1 = i
    · simp [heapSet, heapFind, hp]
    · simp [heapSet, heapFind, hp, ih]

theorem heapFind_heapSet_ne (h : List (Nat × ExportData)) (i j : Nat)
    (d : ExportData) (hij : ¬ (j = i)) :
    heapFind (heapSet h i d) j = heapFind h j := by
  induction h with
  | nil => rfl
  | cons p t ih =>
    by_cases hp : p.1 = i
    · have hij2 : ¬ (i = j) := fun hh => hij hh.symm
      simp [heapSet, heapFind, hp, hij2, ih]
    · simp [heapSet, heapFind, hp, ih]

theorem heapFind_heapErase_self (h : List (Nat × ExportData)) (i : Nat) :
    heapFind (heapErase h i) i = none := by
  induction h with
  | nil => rfl
  | cons p t ih =>
    by_cases hp : p.1 = i
    · simp [heapErase, hp, ih]
    · simp [heapErase, heapFind, hp, ih]

theorem heapFind_heapErase_ne (h : List (Nat × ExportData)) (i j : Nat)
    (hij : ¬ (j = i)) :
    heapFind (heapErase h i) j = heapFind h j := by
  induction h with
  | nil => rfl
  | cons p t ih =>
    by_cases hp : p.1 = i
    · have hij2 : ¬ (i = j) := fun hh => hij hh.symm
      simp [heapErase, heapFind, hp, hij2, ih]
    · simp [heapErase, heapFind, hp, ih]

/-- Translation of nbd_export_get: increment the export's reference count
(the C asserts refcount > 0 first). -/
def nbd_export_get_st (s : NBDState) (i : Nat) : NBDState :=
  match heapFind s.heap i with
  | none => s
  | some d => { s with heap := heapSet s.heap i { d with refcount := d.refcount + 1 } }

/-- Translation of nbd_export_find: walk the exports QTAILQ in insertion
order and return the first export whose bound name compares equal. -/
def nbd_export_find_st (s : NBDState) (name : String) : Option Nat :=
  s.reg.find? (fun i => decide ((heapFind s.heap i).bind ExportData.name = some name))

mutual

/-- Translation of nbd_export_put: if the count is 1, first run
nbd_export_close; then decrement, and free the export when the count
reaches 0 (the C asserts the name is unbound at that point).  The mutual
recursion through nbd_export_close terminates in the C because closing
unbinds the name, after which the nested nbd_export_set_name call returns
immediately; the fuel argument bounds that recursion depth in the model
and every theorem below instantiates it high enough that it is never
exhausted. -/
def nbd_export_put_st : Nat → NBDState → Nat → NBDState
  | 0, s, _ => s
  | fuel + 1, s, i =>
    match heapFind s.heap i with
    | none => s
    | some d =>
      let s1 := if d.refcount = 1 then nbd_export_close_st fuel s i else s
      match heapFind s1.heap i with
      | none => s1
      | some d1 =>
        if d1.refcount - 1 = 0 then { s1 with heap := heapErase s1.heap i }
        else { s1 with heap := heapSet s1.heap i { d1 with refcount := d1.refcount - 1 } }

/-- Translation of nbd_export_close: take a temporary reference, close all
attached clients (their teardown does not synchronously touch the export or
registry, so it is not part of this state), unbind the name, drop the
temporary reference. -/
def nbd_export_close_st : Nat → NBDState → Nat → NBDState
  | 0, s, _ => s
  | fuel + 1, s, i =>
    let s1 := nbd_export_get_st s i
    let s2 := nbd_export_set_name_st fuel s1 i none
    nbd_export_put_st fuel s2 i

/-- Translation of nbd_export_set_name.  The early return compares the two
name pointers, which in the C can only be equal when both are NULL (a bound
name is always a fresh g_strdup copy); take a guard reference; if a name is
bound, free it, remove the export from the exports QTAILQ and drop the
name's reference; if the new name is non-null, take a reference, bind the
copied name and append to the QTAILQ tail; drop the guard reference. -/
def nbd_export_set_name_st : Nat → NBDState → Nat → Option String → NBDState
  | 0, s, _, _ => s
  | fuel + 1, s, i, name =>
    match heapFind s.heap i with
    | none => s
    | some d =>
      if d.name = none ∧ name = none then s
      else
        let s1 := nbd_export_get_st s i
        let s2 :=
          match heapFind s1.heap i with
          | none => s1
          | some d1 =>
            if d1.name ≠ none then
              nbd_export_put_st fuel
                { heap := heapSet s1.heap i { d1 with name := none },
                  reg := s1.reg.filter (fun j => j ≠ i) } i
            else s1
        let s3 :=
          match name with
          | none => s2
          | some nm =>
            match heapFind s2.heap i with
            | none => s2
            | some d2 =>
              { heap := heapSet (nbd_export_get_st s2 i).heap i
                  { d2 with refcount := d2.refcount + 1, name := some nm },
                reg := s2.reg ++ [i] }
        nbd_export_put_st fuel s3 i

end

/-- Translation of nbd_export_new: a fresh export with refcount 1 and no
name; a negative requested size means use blk_getlength; fail if the
effective size is negative; round the size down to a multiple of
BDRV_SECTOR_SIZE (512). -/
def nbd_export_new (blkLength : Int) (dev_offset : Int) (size : Int)
    (nbdflags : Nat) : Option ExportData :=
  let sz := if size < 0 then blkLength else size
  if sz < 0 then none
  else some ⟨1, none, sz - sz % 512, dev_offset, nbdflags⟩

/-! ## Theorems for claim C8 -/

/-- Relation between two states: every export live in the second state was
already live in the first with the same size field. -/
def sizesPreserved (s t : NBDState) : Prop :=
  ∀ j e, heapFind t.heap j = some e →
    ∃ d, heapFind s.heap j = some d ∧ e.size = d.size

theorem sizesPreserved_refl (s : NBDState) : sizesPreserved s s :=
  fun _ e he => ⟨e, he, rfl⟩

theorem sizesPreserved_trans {s t u : NBDState} (h1 : sizesPreserved s t)
    (h2 : sizesPreserved t u) : sizesPreserved s u := by
  intro j e he
  obtain ⟨d, hd, hde⟩ := h2 j e he
  obtain ⟨c, hc, hcd⟩ := h1 j d hd
  exact ⟨c, hc, hde.trans hcd⟩

theorem sizesPreserved_heapSet (s : NBDState) (i : Nat) (d dnew : ExportData)
    (hf : heapFind s.heap i = some d) (hsz : dnew.size = d.size)
    (reg2 : List Nat) :
    sizesPreserved s ⟨heapSet s.heap i dnew, reg2⟩ := by
  intro j e he
  by_cases hj : j = i
  · subst hj
    rw [show (⟨heapSet s.heap j dnew, reg2⟩ : NBDState).heap =
      heapSet s.heap j dnew from rfl, heapFind_heapSet_self, hf] at he
    rw [show ((some d).map fun _ => dnew) = some dnew from rfl] at he
    injection he with he
    exact ⟨d, hf, by rw [← he]; exact hsz⟩
  · rw [show (⟨heapSet s.heap i dnew, reg2⟩ : NBDState).heap =
      heapSet s.heap i dnew from rfl, heapFind_heapSet_ne _ _ _ _ hj] at he
    exact ⟨e, he, rfl⟩

theorem sizesPreserved_heapErase (s : NBDState) (i : Nat) (reg2 : List Nat) :
    sizesPreserved s ⟨heapErase s.heap i, reg2⟩ := by
  intro j e he
  by_cases hj : j = i
  · subst hj
    rw [show (⟨heapErase s.heap j, reg2⟩ : NBDState).heap =
      heapErase s.heap j from rfl, heapFind_heapErase_self] at he
    cases he
  · rw [show (⟨heapErase s.heap i, reg2⟩ : NBDState).heap =
      heapErase s.heap i from rfl, heapFind_heapErase_ne _ _ _ hj] at he
    exact ⟨e, he, rfl⟩

theorem sizesPreserved_get (s : NBDState) (i : Nat) :
    sizesPreserved s (nbd_export_get_st s i) := by
  unfold nbd_export_get_st
  split
  · exact sizesPreserved_refl s
  · next d hf =>
    exact sizesPreserved_heapSet s i d
      { d with refcount := d.refcount + 1 } hf rfl s.reg

theorem sizesPreserved_ops (fuel : Nat) :
    (∀ s i, sizesPreserved s (nbd_export_put_st fuel s i)) ∧
    (∀ s i, sizesPreserved s (nbd_export_close_st fuel s i)) ∧
    (∀ s i name, sizesPreserved s (nbd_export_set_name_st fuel s i name)) := by
  induction fuel with
  | zero =>
    exact ⟨fun s _ => sizesPreserved_refl s, fun s _ => sizesPreserved_refl s,
      fun s _ _ => sizesPreserved_refl s⟩
  | succ fuel ih =>
    obtain ⟨ihput, ihclose, ihset⟩ := ih
    refine ⟨?_, ?_, ?_⟩
    · intro s i
      unfold nbd_export_put_st
      split
      · exact sizesPreserved_refl s
      · next d hf =>
        have key : ∀ t : NBDState, sizesPreserved s t →
            sizesPreserved s
              (match heapFind t.heap i with
               | none => t
               | some d1 =>
                 if d1.refcount - 1 = 0 then
                   { heap := heapErase t.heap i, reg := t.reg }
                 else
                   { heap := heapSet t.heap i
                       { d1 with refcount := d1.refcount - 1 },
                     reg := t.reg }) := by
          intro t h1
          cases hf1 : heapFind t.heap i with
          | none => exact h1
          | some d1 =>
            show sizesPreserved s
              (if d1.refcount - 1 = 0 then
                { heap := heapErase t.heap i, reg := t.reg }
               else
                 { heap := heapSet t.heap i
                     { d1 with refcount := d1.refcount - 1 },
                   reg := t.reg })
            by_cases hz : d1.refcount - 1 = 0
            · rw [if_pos hz]
              exact sizesPreserved_trans h1 (sizesPreserved_heapErase t i t.reg)
            · rw [if_neg hz]
              exact sizesPreserved_trans h1
                (sizesPreserved_heapSet t i d1
                  { d1 with refcount := d1.refcount - 1 } hf1 rfl t.reg)
        refine key (if d.refcount = 1 then nbd_export_close_st fuel s i else s) ?_
        split
        · exact ihclose s i
        · exact sizesPreserved_refl s
    · intro s i
      unfold nbd_export_close_st
      exact sizesPreserved_trans (sizesPreserved_get s i)
        (sizesPreserved_trans (ihset _ i none) (ihput _ i))
    · intro s i name
      unfold nbd_export_set_name_st
      split
      · exact sizesPreserved_refl s
      · next d hf =>
        by_cases hearly : d.name = none ∧ name = none
        · rw [if_pos hearly]
          exact sizesPreserved_refl s
        · rw [if_neg hearly]
          have keyU : ∀ t : NBDState, sizesPreserved s t →
              sizesPreserved s
                (match heapFind t.heap i with
                 | none => t
                 | some d1 =>
                   if d1.name ≠ none then
                     nbd_export_put_st fuel
                       { heap := heapSet t.heap i { d1 with name := none },
                         reg := t.reg.filter (fun j => j ≠ i) } i
                   else t) := by
            intro t h1
            cases hf1 : heapFind t.heap i with
            | none => exact h1
            | some d1 =>
              show sizesPreserved s
                (if d1.name ≠ none then
                   nbd_export_put_st fuel
                     { heap := heapSet t.heap i { d1 with name := none },
                       reg := t.reg.filter (fun j => j ≠ i) } i
                 else t)
              by_cases hn : d1.name ≠ none
              · rw [if_pos hn]
                exact sizesPreserved_trans h1 (sizesPreserved_trans
                  (sizesPreserved_heapSet t i d1 { d1 with name := none }
                    hf1 rfl (t.reg.filter (fun j => j ≠ i))) (ihput _ i))
              · rw [if_neg hn]
                exact h1
          cases name with
          | none =>
            exact sizesPreserved_trans
              (keyU _ (sizesPreserved_get s i)) (ihput _ i)
          | some nm =>
            have keyB : ∀ t : NBDState, sizesPreserved s t →
                sizesPreserved s (nbd_export_put_st fuel
                  (match heapFind t.heap i with
                   | none => t
                   | some d2 =>
                     { heap := heapSet (nbd_export_get_st t i).heap i
                         { d2 with refcount := d2.refcount + 1, name := some nm },
                       reg := t.reg ++ [i] }) i) := by
              intro t h1
              cases hf2 : heapFind t.heap i with
              | none => exact sizesPreserved_trans h1 (ihput t i)
              | some d2 =>
                have hfg : heapFind (nbd_export_get_st t i).heap i =
                    some { d2 with refcount := d2.refcount + 1 } := by
                  unfold nbd_export_get_st
                  rw [hf2]
                  show heapFind
                    (heapSet t.heap i { d2 with refcount := d2.refcount + 1 }) i = _
                  rw [heapFind_heapSet_self, hf2]
                  rfl
                exact sizesPreserved_trans
                  (sizesPreserved_trans h1 (sizesPreserved_trans
                    (sizesPreserved_get t i)
                    (sizesPreserved_heapSet (nbd_export_get_st t i) i
                      { d2 with refcount := d2.refcount + 1 }
                      { d2 with refcount := d2.refcount + 1, name := some nm }
                      hfg rfl (t.reg ++ [i]))))
                  (ihput _ i)
            exact keyB _ (keyU _ (sizesPreserved_get s i))

/-- C8: every export successfully created by nbd_export_new has a size that
is a non-negative multiple of 512, and no registry operation (get, put,
close, set_name, at any recursion fuel) ever changes the size of a live
export afterwards. -/
theorem export_size_aligned_and_immutable :
    (∀ blkLength dev_offset size nbdflags e,
      nbd_export_new blkLength dev_offset size nbdflags = some e →
        0 ≤ e.size ∧ e.size % 512 = 0) ∧
    (∀ fuel s i, sizesPreserved s (nbd_export_put_st fuel s i)) ∧
    (∀ fuel s i, sizesPreserved s (nbd_export_close_st fuel s i)) ∧
    (∀ fuel s i name, sizesPreserved s (nbd_export_set_name_st fuel s i name)) ∧
    (∀ s i, sizesPreserved s (nbd_export_get_st s i)) := by
  refine ⟨?_, fun fuel => (sizesPreserved_ops fuel).1,
    fun fuel => (sizesPreserved_ops fuel).2.1,
    fun fuel => (sizesPreserved_ops fuel).2.2, sizesPreserved_get⟩
  intro bl dv sz fl e h
  simp only [nbd_export_new] at h
  by_cases hneg : (if sz < 0 then bl else sz) < 0
  · rw [if_pos hneg] at h; cases h
  · rw [if_neg hneg] at h
    injection h with h
    subst h
    have hnn : (0 : Int) ≤ if sz < 0 then bl else sz := le_of_not_lt hneg
    have hdef : (if sz < 0 then bl else sz) % 512 =
        (if sz < 0 then bl else sz) - 512 * ((if sz < 0 then bl else sz) / 512) :=
      Int.emod_def _ 512
    have hdiv : (0 : Int) ≤ (if sz < 0 then bl else sz) / 512 :=
      Int.ediv_nonneg hnn (by norm_num)
    have heq : (if sz < 0 then bl else sz) - (if sz < 0 then bl else sz) % 512 =
        512 * ((if sz < 0 then bl else sz) / 512) := by omega
    constructor
    · show (0 : Int) ≤ (if sz < 0 then bl else sz) - (if sz < 0 then bl else sz) % 512
      rw [heq]
      exact mul_nonneg (by norm_num) hdiv
    · show ((if sz < 0 then bl else sz) - (if sz < 0 then bl else sz) % 512) % 512 = 0
      rw [heq]
      exact Int.mul_emod_right 512 _

/-- Witness for export_size_aligned_and_immutable: creating an export with
requested size 1000 rounds it down to 512, a non-negative multiple
of 512. -/
theorem export_size_aligned_witness :
    0 ≤ (⟨1, none, 512, 0, 0⟩ : ExportData).size ∧
    (⟨1, none, 512, 0, 0⟩ : ExportData).size % 512 = 0 :=
  export_size_aligned_and_immutable.1 0 0 1000 0 ⟨1, none, 512, 0, 0⟩ (by decide)

/-! ## Theorems for claim C9 -/

theorem heapFind_heapSet_self_of (h : List (Nat × ExportData)) (i : Nat)
    (d dnew : ExportData) (hd : heapFind h i = some d) :
    heapFind (heapSet h i dnew) i = some dnew := by
  rw [heapFind_heapSet_self, hd]
  rfl

/-- Computation rule for nbd_export_get_st on a live export. -/
theorem nbd_export_get_st_spec (s : NBDState) (i : Nat) (d : ExportData)
    (hd : heapFind s.heap i = some d) :
    nbd_export_get_st s i =
      ⟨heapSet s.heap i { d with refcount := d.refcount + 1 }, s.reg⟩ := by
  unfold nbd_export_get_st
  rw [hd]

/-- Computation rule for nbd_export_put_st on a live export whose count is
neither 1 before nor 0 after the decrement: a plain decrement. -/
theorem nbd_export_put_st_spec (fuel : Nat) (s : NBDState) (i : Nat)
    (d : ExportData) (hd : heapFind s.heap i = some d)
    (h1 : d.refcount ≠ 1) (h0 : d.refcount - 1 ≠ 0) :
    nbd_export_put_st (fuel + 1) s i =
      ⟨heapSet s.heap i { d with refcount := d.refcount - 1 }, s.reg⟩ := by
  simp only [nbd_export_put_st, hd, if_neg h1, if_neg h0]

/-- Unbinding the name of an export that has no name bound is a no-op (the
early pointer-equality return, or fuel exhaustion, which coincide). -/
theorem set_name_none_noop (fuel : Nat) (s : NBDState) (i : Nat)
    (d : ExportData) (hd : heapFind s.heap i = some d) (hn : d.name = none) :
    nbd_export_set_name_st fuel s i none = s := by
  cases fuel with
  | zero => rfl
  | succ fuel =>
    unfold nbd_export_set_name_st
    rw [hd]
    show (if d.name = none ∧ (none : Option String) = none then s else _) = s
    rw [if_pos ⟨hn, rfl⟩]

/-- Computation rule for nbd_export_close_st on a live unnamed export with a
positive count: the temporary get/put pair nets out, the set_name is the
no-op early return. -/
theorem nbd_export_close_st_spec_unnamed (fuel : Nat) (s : NBDState) (i : Nat)
    (d : ExportData) (hd : heapFind s.heap i = some d) (hn : d.name = none)
    (hr : 1 ≤ d.refcount) :
    nbd_export_close_st (fuel + 2) s i =
      ⟨heapSet (heapSet s.heap i { d with refcount := d.refcount + 1 }) i
        { d with refcount := d.refcount + 1 - 1 }, s.reg⟩ := by
  have hfA : heapFind
      (⟨heapSet s.heap i { d with refcount := d.refcount + 1 }, s.reg⟩ :
        NBDState).heap i = some { d with refcount := d.refcount + 1 } :=
    heapFind_heapSet_self_of s.heap i d _ hd
  simp only [nbd_export_close_st]
  rw [nbd_export_get_st_spec s i d hd,
    set_name_none_noop (fuel + 1) _ i { d with refcount := d.refcount + 1 }
      hfA hn,
    nbd_export_put_st_spec fuel _ i { d with refcount := d.refcount + 1 }
      hfA (by show d.refcount + 1 ≠ 1; omega)
      (by show d.refcount + 1 - 1 ≠ 0; omega)]

/-- Computation rule for nbd_export_put_st dropping the last reference of a
live unnamed export: nbd_export_close_st runs (a net no-op on an unnamed
export), then the export is freed.  The registry list is untouched. -/
theorem nbd_export_put_st_free_spec (fuel : Nat) (s : NBDState) (i : Nat)
    (d : ExportData) (hd : heapFind s.heap i = some d) (h1 : d.refcount = 1)
    (hn : d.name = none) :
    heapFind (nbd_export_put_st (fuel + 3) s i).heap i = none ∧
    (nbd_export_put_st (fuel + 3) s i).reg = s.reg := by
  have hclose := nbd_export_close_st_spec_unnamed fuel s i d hd hn (by omega)
  have hfB : heapFind (nbd_export_close_st (fuel + 2) s i).heap i =
      some { d with refcount := d.refcount + 1 - 1 } := by
    rw [hclose]
    exact heapFind_heapSet_self_of _ i { d with refcount := d.refcount + 1 } _
      (heapFind_heapSet_self_of s.heap i d _ hd)
  constructor
  · simp only [nbd_export_put_st, hd, if_pos h1]
    rw [show heapFind (nbd_export_close_st (fuel + 2) s i).heap i =
      some { d with refcount := d.refcount + 1 - 1 } from hfB]
    simp only [show ({ d with refcount := d.refcount + 1 - 1 } :
      ExportData).refcount - 1 = 0 by show d.refcount + 1 - 1 - 1 = 0; omega,
      if_pos]
    show heapFind (heapErase (nbd_export_close_st (fuel + 2) s i).heap i) i = none
    exact heapFind_heapErase_self _ i
  · simp only [nbd_export_put_st, hd, if_pos h1]
    rw [show heapFind (nbd_export_close_st (fuel + 2) s i).heap i =
      some { d with refcount := d.refcount + 1 - 1 } from hfB]
    simp only [show ({ d with refcount := d.refcount + 1 - 1 } :
      ExportData).refcount - 1 = 0 by show d.refcount + 1 - 1 - 1 = 0; omega,
      if_pos]
    show (nbd_export_close_st (fuel + 2) s i).reg = s.reg
    rw [hclose]

/-- Helper: find? over a list with one id appended, when any hit inside the
prefix can only be the appended id itself. -/
theorem find_append_self (l : List Nat) (p : Nat → Bool) (i : Nat)
    (hp : p i = true) (hl : ∀ j ∈ l, p j = true → j = i) :
    (l ++ [i]).find? p = some i := by
  induction l with
  | nil => simp [List.find?, hp]
  | cons a l ih =>
    rw [List.cons_append]
    by_cases ha : p a = true
    · have haa : a = i := hl a (by simp) ha
      subst haa
      simp [List.find?, ha]
    · have ha2 : p a = false := by
        revert ha; cases p a <;> simp
      simp only [List.find?, ha2]
      exact ih (fun j hj hpj => hl j (by simp [hj]) hpj)

/-- C9, binding half: for every live export with refcount r at least 1 and
no name bound, nbd_export_set_name with a fresh name nm (no registered
export carries nm) leaves the refcount at r + 1, binds the name, and makes
the export discoverable via nbd_export_find. -/
theorem set_name_bind_refcount (fuel : Nat) (s : NBDState) (i : Nat)
    (d : ExportData) (nm : String) (hd : heapFind s.heap i = some d)
    (hr : 1 ≤ d.refcount) (hn : d.name = none)
    (huniq : ∀ j ∈ s.reg,
      ¬ ((heapFind s.heap j).bind ExportData.name = some nm)) :
    heapFind (nbd_export_set_name_st (fuel + 4) s i (some nm)).heap i =
      some { d with refcount := d.refcount + 1, name := some nm } ∧
    (nbd_export_set_name_st (fuel + 4) s i (some nm)).reg = s.reg ++ [i] ∧
    nbd_export_find_st (nbd_export_set_name_st (fuel + 4) s i (some nm)) nm =
      some i := by
  have hearly : ¬ (d.name = none ∧ (some nm : Option String) = none) := by
    simp
  have hA : nbd_export_get_st s i =
      ⟨heapSet s.heap i { d with refcount := d.refcount + 1 }, s.reg⟩ :=
    nbd_export_get_st_spec s i d hd
  have hfA : heapFind (heapSet s.heap i { d with refcount := d.refcount + 1 })
      i = some { d with refcount := d.refcount + 1 } :=
    heapFind_heapSet_self_of s.heap i d _ hd
  have hcond2 : ¬ (({ d with refcount := d.refcount + 1 } :
      ExportData).name ≠ none) := by simp [hn]
  have hB : nbd_export_get_st
      ⟨heapSet s.heap i { d with refcount := d.refcount + 1 }, s.reg⟩ i =
      ⟨heapSet (heapSet s.heap i { d with refcount := d.refcount + 1 }) i
        { d with refcount := d.refcount + 1 + 1 }, s.reg⟩ := by
    have := nbd_export_get_st_spec
      ⟨heapSet s.heap i { d with refcount := d.refcount + 1 }, s.reg⟩ i
      { d with refcount := d.refcount + 1 } hfA
    exact this
  have hstep : nbd_export_set_name_st (fuel + 4) s i (some nm) =
      nbd_export_put_st (fuel + 3)
        ⟨heapSet (heapSet (heapSet s.heap i
            { d with refcount := d.refcount + 1 }) i
            { d with refcount := d.refcount + 1 + 1 }) i
            { d with refcount := d.refcount + 1 + 1, name := some nm },
          s.reg ++ [i]⟩ i := by
    simp only [nbd_export_set_name_st, hd, if_neg hearly, hA, hfA,
      if_neg hcond2, hB]
  have hfS3 : heapFind (heapSet (heapSet (heapSet s.heap i
      { d with refcount := d.refcount + 1 }) i
      { d with refcount := d.refcount + 1 + 1 }) i
      { d with refcount := d.refcount + 1 + 1, name := some nm }) i =
      some { d with refcount := d.refcount + 1 + 1, name := some nm } :=
    heapFind_heapSet_self_of _ i { d with refcount := d.refcount + 1 + 1 } _
      (heapFind_heapSet_self_of _ i { d with refcount := d.refcount + 1 } _ hfA)
  have hput : nbd_export_put_st (fuel + 3)
      ⟨heapSet (heapSet (heapSet s.heap i
          { d with refcount := d.refcount + 1 }) i
          { d with refcount := d.refcount + 1 + 1 }) i
          { d with refcount := d.refcount + 1 + 1, name := some nm },
        s.reg ++ [i]⟩ i =
      ⟨heapSet (heapSet (heapSet (heapSet s.heap i
          { d with refcount := d.refcount + 1 }) i
          { d with refcount := d.refcount + 1 + 1 }) i
          { d with refcount := d.refcount + 1 + 1, name := some nm }) i
          { d with refcount := d.refcount + 1 + 1 - 1, name := some nm },
        s.reg ++ [i]⟩ := by
    have := nbd_export_put_st_spec (fuel + 2)
      ⟨heapSet (heapSet (heapSet s.heap i
          { d with refcount := d.refcount + 1 }) i
          { d with refcount := d.refcount + 1 + 1 }) i
          { d with refcount := d.refcount + 1 + 1, name := some nm },
        s.reg ++ [i]⟩ i
      { d with refcount := d.refcount + 1 + 1, name := some nm } hfS3
      (by show d.refcount + 1 + 1 ≠ 1; omega)
      (by show d.refcount + 1 + 1 - 1 ≠ 0; omega)
    exact this
  have hfR : heapFind (heapSet (heapSet (heapSet (heapSet s.heap i
      { d with refcount := d.refcount + 1 }) i
      { d with refcount := d.refcount + 1 + 1 }) i
      { d with refcount := d.refcount + 1 + 1, name := some nm }) i
      { d with refcount := d.refcount + 1 + 1 - 1, name := some nm }) i =
      some { d with refcount := d.refcount + 1 + 1 - 1, name := some nm } :=
    heapFind_heapSet_self_of _ i
      { d with refcount := d.refcount + 1 + 1, name := some nm } _ hfS3
  refine ⟨?_, ?_, ?_⟩
  · rw [hstep, hput]
    show heapFind _ i = _
    rw [hfR]
    simp only [Option.some.injEq, ExportData.mk.injEq, and_true, true_and]
    omega
  · rw [hstep, hput]
  · rw [hstep, hput]
    unfold nbd_export_find_st
    show (s.reg ++ [i]).find? _ = some i
    refine find_append_self s.reg _ i ?_ ?_
    · simp only [hfR]
      simp
    · intro j hj hpj
      by_cases hji : j = i
      · exact hji
      · exfalso
        rw [show heapFind (heapSet (heapSet (heapSet (heapSet s.heap i
            { d with refcount := d.refcount + 1 }) i
            { d with refcount := d.refcount + 1 + 1 }) i
            { d with refcount := d.refcount + 1 + 1, name := some nm }) i
            { d with refcount := d.refcount + 1 + 1 - 1, name := some nm }) j =
            heapFind s.heap j from by
          rw [heapFind_heapSet_ne _ _ _ _ hji, heapFind_heapSet_ne _ _ _ _ hji,
            heapFind_heapSet_ne _ _ _ _ hji, heapFind_heapSet_ne _ _ _ _ hji]]
          at hpj
        rw [decide_eq_true_iff] at hpj
        exact huniq j hj hpj

/-- C9, unbinding half: for every live export with refcount r at least 1 and
a name bound, nbd_export_set_name with a null name removes the export from
the registry and leaves the refcount at r - 1; when r - 1 = 0 the export is
freed (nbd_export_close runs and the final reference drop destroys it). -/
theorem set_name_unbind_refcount (fuel : Nat) (s : NBDState) (i : Nat)
    (d : ExportData) (nm0 : String) (hd : heapFind s.heap i = some d)
    (hr : 1 ≤ d.refcount) (hb : d.name = some nm0) :
    i ∉ (nbd_export_set_name_st (fuel + 4) s i none).reg ∧
    (2 ≤ d.refcount →
      heapFind (nbd_export_set_name_st (fuel + 4) s i none).heap i =
        some { d with refcount := d.refcount - 1, name := none }) ∧
    (d.refcount = 1 →
      heapFind (nbd_export_set_name_st (fuel + 4) s i none).heap i = none) := by
  have hearly : ¬ (d.name = none ∧ (none : Option String) = none) := by
    simp [hb]
  have hA : nbd_export_get_st s i = ⟨heapSet s.heap i { d with refcount := d.refcount + 1 }, s.reg⟩ :=
    nbd_export_get_st_spec s i d hd
  have hfA : heapFind (heapSet s.heap i { d with refcount := d.refcount + 1 }) i = some { d with refcount := d.refcount + 1 } :=
    heapFind_heapSet_self_of s.heap i d _ hd
  have hcond3 : ({ d with refcount := d.refcount + 1 } : ExportData).name ≠ none := by simp [hb]
  have hfC : heapFind (heapSet (heapSet s.heap i { d with refcount := d.refcount + 1 }) i { d with refcount := d.refcount + 1, name := none }) i = some { d with refcount := d.refcount + 1, name := none } :=
    heapFind_heapSet_self_of _ i { d with refcount := d.refcount + 1 } _ hfA
  have hputC : nbd_export_put_st (fuel + 3) ⟨heapSet (heapSet s.heap i { d with refcount := d.refcount + 1 }) i { d with refcount := d.refcount + 1, name := none }, List.filter (fun j => decide (j ≠ i)) s.reg⟩ i =
      ⟨heapSet (heapSet (heapSet s.heap i { d with refcount := d.refcount + 1 }) i { d with refcount := d.refcount + 1, name := none }) i { d with refcount := d.refcount + 1 - 1, name := none }, List.filter (fun j => decide (j ≠ i)) s.reg⟩ := by
    have := nbd_export_put_st_spec (fuel + 2) ⟨heapSet (heapSet s.heap i { d with refcount := d.refcount + 1 }) i { d with refcount := d.refcount + 1, name := none }, List.filter (fun j => decide (j ≠ i)) s.reg⟩ i { d with refcount := d.refcount + 1, name := none } hfC
      (by show d.refcount + 1 ≠ 1; omega)
      (by show d.refcount + 1 - 1 ≠ 0; omega)
    exact this
  have hearly2 : ¬ (d.name = none ∧ True) := by simp [hb]
  have hstep : nbd_export_set_name_st (fuel + 4) s i none =
      nbd_export_put_st (fuel + 3) ⟨heapSet (heapSet (heapSet s.heap i { d with refcount := d.refcount + 1 }) i { d with refcount := d.refcount + 1, name := none }) i { d with refcount := d.refcount + 1 - 1, name := none }, List.filter (fun j => decide (j ≠ i)) s.reg⟩ i := by
    simp only [nbd_export_set_name_st, hd, if_neg hearly, hA, hfA,
      if_pos hcond3, hputC, if_neg hearly2]
  have hfD : heapFind (heapSet (heapSet (heapSet s.heap i { d with refcount := d.refcount + 1 }) i { d with refcount := d.refcount + 1, name := none }) i { d with refcount := d.refcount + 1 - 1, name := none }) i = some { d with refcount := d.refcount + 1 - 1, name := none } :=
    heapFind_heapSet_self_of _ i { d with refcount := d.refcount + 1, name := none } _ hfC
  have hnotmem : i ∉ (List.filter (fun j => decide (j ≠ i)) s.reg) := by simp
  rcases (by omega : d.refcount = 1 ∨ 2 ≤ d.refcount) with h1 | h2
  · have hfree := nbd_export_put_st_free_spec fuel ⟨heapSet (heapSet (heapSet s.heap i { d with refcount := d.refcount + 1 }) i { d with refcount := d.refcount + 1, name := none }) i { d with refcount := d.refcount + 1 - 1, name := none }, List.filter (fun j => decide (j ≠ i)) s.reg⟩ i { d with refcount := d.refcount + 1 - 1, name := none } hfD
      (by show d.refcount + 1 - 1 = 1; omega) rfl
    refine ⟨?_, ?_, ?_⟩
    · rw [hstep]
      show i ∉ (nbd_export_put_st (fuel + 3) ⟨heapSet (heapSet (heapSet s.heap i { d with refcount := d.refcount + 1 }) i { d with refcount := d.refcount + 1, name := none }) i { d with refcount := d.refcount + 1 - 1, name := none }, List.filter (fun j => decide (j ≠ i)) s.reg⟩ i).reg
      rw [hfree.2]
      exact hnotmem
    · intro hge2; omega
    · intro _
      rw [hstep]
      exact hfree.1
  · have hput2 : nbd_export_put_st (fuel + 3) ⟨heapSet (heapSet (heapSet s.heap i { d with refcount := d.refcount + 1 }) i { d with refcount := d.refcount + 1, name := none }) i { d with refcount := d.refcount + 1 - 1, name := none }, List.filter (fun j => decide (j ≠ i)) s.reg⟩ i =
        ⟨heapSet (heapSet (heapSet (heapSet s.heap i { d with refcount := d.refcount + 1 }) i { d with refcount := d.refcount + 1, name := none }) i { d with refcount := d.refcount + 1 - 1, name := none }) i { d with refcount := d.refcount + 1 - 1 - 1, name := none }, List.filter (fun j => decide (j ≠ i)) s.reg⟩ := by
      have := nbd_export_put_st_spec (fuel + 2) ⟨heapSet (heapSet (heapSet s.heap i { d with refcount := d.refcount + 1 }) i { d with refcount := d.refcount + 1, name := none }) i { d with refcount := d.refcount + 1 - 1, name := none }, List.filter (fun j => decide (j ≠ i)) s.reg⟩ i { d with refcount := d.refcount + 1 - 1, name := none } hfD
        (by show d.refcount + 1 - 1 ≠ 1; omega)
        (by show d.refcount + 1 - 1 - 1 ≠ 0; omega)
      exact this
    refine ⟨?_, ?_, ?_⟩
    · rw [hstep, hput2]
      exact hnotmem
    · intro _
      rw [hstep, hput2]
      show heapFind (heapSet (heapSet (heapSet (heapSet s.heap i { d with refcount := d.refcount + 1 }) i { d with refcount := d.refcount + 1, name := none }) i { d with refcount := d.refcount + 1 - 1, name := none }) i { d with refcount := d.refcount + 1 - 1 - 1, name := none }) i = _
      rw [heapFind_heapSet_self_of _ i { d with refcount := d.refcount + 1 - 1, name := none } { d with refcount := d.refcount + 1 - 1 - 1, name := none } hfD]
      simp only [Option.some.injEq, ExportData.mk.injEq, and_true, true_and]
      omega
    · intro h1; omega

/-- C9: for every live export with refcount r at least 1: calling
nbd_export_set_name with a fresh non-null name when no name is bound leaves
the refcount at r + 1 and makes the export discoverable via
nbd_export_find; calling it with null when a name is bound removes the
export from the registry and leaves the refcount at r - 1, the export being
freed when the count thereby reaches 0. -/
theorem set_name_refcount_and_registry (fuel : Nat) (s : NBDState) (i : Nat)
    (d : ExportData) (hd : heapFind s.heap i = some d)
    (hr : 1 ≤ d.refcount) :
    (∀ nm : String, d.name = none →
      (∀ j ∈ s.reg,
        ¬ ((heapFind s.heap j).bind ExportData.name = some nm)) →
      heapFind (nbd_export_set_name_st (fuel + 4) s i (some nm)).heap i =
        some { d with refcount := d.refcount + 1, name := some nm } ∧
      (nbd_export_set_name_st (fuel + 4) s i (some nm)).reg = s.reg ++ [i] ∧
      nbd_export_find_st (nbd_export_set_name_st (fuel + 4) s i (some nm)) nm = some i) ∧
    (∀ nm0 : String, d.name = some nm0 →
      i ∉ (nbd_export_set_name_st (fuel + 4) s i none).reg ∧
      (2 ≤ d.refcount →
        heapFind (nbd_export_set_name_st (fuel + 4) s i none).heap i =
          some { d with refcount := d.refcount - 1, name := none }) ∧
      (d.refcount = 1 →
        heapFind (nbd_export_set_name_st (fuel + 4) s i none).heap i = none)) :=
  ⟨fun nm hn huniq => set_name_bind_refcount fuel s i d nm hd hr hn huniq,
   fun nm0 hb => set_name_unbind_refcount fuel s i d nm0 hd hr hb⟩

/-- Witness for set_name_refcount_and_registry: a single unnamed export with
refcount 1 in an empty registry. -/
theorem set_name_refcount_witness :
    (∀ nm : String, (⟨1, none, 512, 0, 0⟩ : ExportData).name = none →
      (∀ j ∈ (⟨[(0, ⟨1, none, 512, 0, 0⟩)], []⟩ : NBDState).reg,
        ¬ ((heapFind (⟨[(0, ⟨1, none, 512, 0, 0⟩)], []⟩ : NBDState).heap j).bind ExportData.name = some nm)) →
      heapFind (nbd_export_set_name_st (0 + 4) (⟨[(0, ⟨1, none, 512, 0, 0⟩)], []⟩ : NBDState) 0 (some nm)).heap 0 =
        some { (⟨1, none, 512, 0, 0⟩ : ExportData) with refcount := (⟨1, none, 512, 0, 0⟩ : ExportData).refcount + 1, name := some nm } ∧
      (nbd_export_set_name_st (0 + 4) (⟨[(0, ⟨1, none, 512, 0, 0⟩)], []⟩ : NBDState) 0 (some nm)).reg = (⟨[(0, ⟨1, none, 512, 0, 0⟩)], []⟩ : NBDState).reg ++ [0] ∧
      nbd_export_find_st (nbd_export_set_name_st (0 + 4) (⟨[(0, ⟨1, none, 512, 0, 0⟩)], []⟩ : NBDState) 0 (some nm)) nm = some 0) ∧
    (∀ nm0 : String, (⟨1, none, 512, 0, 0⟩ : ExportData).name = some nm0 →
      0 ∉ (nbd_export_set_name_st (0 + 4) (⟨[(0, ⟨1, none, 512, 0, 0⟩)], []⟩ : NBDState) 0 none).reg ∧
      (2 ≤ (⟨1, none, 512, 0, 0⟩ : ExportData).refcount →
        heapFind (nbd_export_set_name_st (0 + 4) (⟨[(0, ⟨1, none, 512, 0, 0⟩)], []⟩ : NBDState) 0 none).heap 0 =
          some { (⟨1, none, 512, 0, 0⟩ : ExportData) with refcount := (⟨1, none, 512, 0, 0⟩ : ExportData).refcount - 1, name := none }) ∧
      ((⟨1, none, 512, 0, 0⟩ : ExportData).refcount = 1 →
        heapFind (nbd_export_set_name_st (0 + 4) (⟨[(0, ⟨1, none, 512, 0, 0⟩)], []⟩ : NBDState) 0 none).heap 0 = none)) :=
  set_name_refcount_and_registry 0 (⟨[(0, ⟨1, none, 512, 0, 0⟩)], []⟩ : NBDState) 0 (⟨1, none, 512, 0, 0⟩ : ExportData) rfl (by norm_num)
